import Mathlib

/-!
Verification of the grid-generation module `pycato/generate_initial_grids.py`
of the fvleg_2d repository.

The Python module builds structured CFD initial-condition grids.  We give a
shallow embedding over exact rational arithmetic (`ℚ` in place of float64;
the real-number formulas of `numpy` are translated literally, so `linspace`,
`diff`, midpoints, etc. are exact).  Python exceptions are modelled with
`Except String`; the potentially non-terminating geometric-spacing loop is
modelled with explicit fuel, where `Except.ok none` means "fuel exhausted"
(the Python loop has not returned yet), never an error.
-/

deriving instance DecidableEq for Except

namespace Pycato

/-! ## numpy primitives -/

/-- `np.linspace(start, stop, num)`: `num` evenly spaced points from `start`
to `stop` inclusive, `x i = start + (stop-start) * i / (num-1)`. -/
def linspace (start stop : ℚ) (num : ℕ) : List ℚ :=
  (List.range num).map (fun (i : ℕ) => start + (stop - start) * (i : ℚ) / ((num : ℚ) - 1))

/-- `np.diff(x)`: list of consecutive differences `x (i+1) - x i`. -/
def npDiff (xs : List ℚ) : List ℚ :=
  (xs.zip xs.tail).map (fun p => p.2 - p.1)

/-- `np.any(x)` on a numeric array: true iff some element is nonzero. -/
def npAny (xs : List ℚ) : Bool :=
  xs.any (fun q => decide (q ≠ 0))

/-- Insert one element into an ascending sorted list (helper for `npUnique`). -/
def insertSorted (a : ℚ) : List ℚ → List ℚ
  | [] => [a]
  | b :: t => if a ≤ b then a :: b :: t else b :: insertSorted a t

/-- Ascending insertion sort (helper for `npUnique`). -/
def sortQ (xs : List ℚ) : List ℚ :=
  xs.foldr insertSorted []

/-- Remove adjacent duplicates (helper for `npUnique`). -/
def dedupAdj : List ℚ → List ℚ
  | [] => []
  | [a] => [a]
  | a :: b :: t => if a = b then dedupAdj (b :: t) else a :: dedupAdj (b :: t)

/-- `np.unique(x)`: sorted array of the distinct values of `x`. -/
def npUnique (xs : List ℚ) : List ℚ :=
  dedupAdj (sortQ xs)

/-- `min()` of a nonempty array (0 on the empty array, which is never used). -/
def npMin (xs : List ℚ) : ℚ :=
  xs.foldr min xs.headI

/-- `np.round(q, 0)`: round half to even (banker's rounding), as an integer. -/
def npRound (q : ℚ) : ℤ :=
  let f := ⌊q⌋
  let r := q - f
  if r < 1/2 then f else if 1/2 < r then f + 1 else if f % 2 = 0 then f else f + 1

/-- `np.cumsum`, with an accumulator argument (call with `acc = 0`). -/
def cumsum : List ℚ → ℚ → List ℚ
  | [], _ => []
  | t :: rest, acc => (acc + t) :: cumsum rest (acc + t)

/-! ## Python string primitives -/

/-- The single-quote character. -/
def squote : Char := Char.ofNat 39

/-- The double-quote character. -/
def dquote : Char := Char.ofNat 34

/-- Python `s.strip(c)` for a one-character strip set: remove every leading
and trailing occurrence of `c`. -/
def pyStrip (c : Char) (s : String) : String :=
  ⟨(((s.toList.dropWhile (· = c))).reverse.dropWhile (· = c)).reverse⟩

/-- Python `s.endswith(suffix)`. -/
def pyEndswith (s suffix : String) : Bool :=
  suffix.toList.isSuffixOf s.toList

/-! ## Ghost-Layer Policy (`get_n_ghost_layers_required`, lines 13-40) -/

/-- The recognized limiter names (lines 21-31). -/
def valid_limiters : List String :=
  ["minmod", "superbee", "van_leer", "TVD3", "TVD5", "MLP3", "eMLP3", "MLP5", "eMLP5"]

/-- The limiters that need a 5-point stencil (line 36). -/
def five_point_limiters : List String :=
  ["TVD5", "MLP5", "eMLP5"]

/-- `edge_interp.strip("'").strip('"')` (line 19). -/
def stripQuotes (s : String) : String :=
  pyStrip dquote (pyStrip squote s)

/-- `get_n_ghost_layers_required` (lines 13-40).  The configuration file is
abstracted to the one field the function reads, the `[scheme] limiter`
string; quote stripping, validation and the 2-vs-3 choice are as in the
source. -/
def get_n_ghost_layers_required (limiter : String) : Except String ℕ :=
  let edge_interp := stripQuotes limiter
  if edge_interp ∈ valid_limiters then
    if edge_interp ∈ five_point_limiters then .ok 3 else .ok 2
  else
    .error "Invalid limiter type in the input.ini file"

/-! ## Axis Partitioner (`linear_spacing` lines 115-155,
`constant_spacing` lines 158-163) -/

/-- The `while True` loop of `linear_spacing` (lines 145-150), with explicit
fuel; the accumulated nodes are kept in reverse order (`xs.headI` is the
Python `x[-1]`).  `none` means the fuel ran out before the loop exited. -/
def spacingLoop (scale max_dist : ℚ) : ℕ → ℚ → List ℚ → Option (List ℚ)
  | 0, _, _ => none
  | fuel + 1, dx, xs =>
    let new_x := xs.headI + dx
    let xs' := new_x :: xs
    if max_dist < new_x then some xs'
    else spacingLoop scale max_dist fuel (dx * scale) xs'

/-- `linear_spacing` (lines 115-155): geometric node spacing.  Returns the
node array, the first step `x[1]-x[0]`, the last step `x[-1]-x[-2]`, and
`ncells = len(x)`.  `.error` models the `start >= max_dist` raise;
`.ok none` models the loop still running when the fuel runs out. -/
def linear_spacing (fuel : ℕ) (start initial_dx scale max_dist : ℚ) :
    Except String (Option (List ℚ × ℚ × ℚ × ℕ)) :=
  if max_dist ≤ start then .error "Error: start >= max_dist"
  else
    match spacingLoop scale max_dist fuel initial_dx [start] with
    | none => .ok none
    | some rev =>
      let x := rev.reverse
      .ok (some (x, x.getD 1 0 - x.getD 0 0,
        x.getD (x.length - 1) 0 - x.getD (x.length - 2) 0, x.length))

/-- `constant_spacing` (lines 158-163): `ncells+1` evenly spaced nodes.
`x[1] - x[0]` raises `IndexError` in numpy when the array has fewer than two
entries (`ncells = 0`). -/
def constant_spacing (start max_dist : ℚ) (ncells : ℕ) : Except String (List ℚ × ℚ × ℚ) :=
  let x := linspace start max_dist (ncells + 1)
  if x.length < 2 then .error "IndexError"
  else .ok (x, x.getD 1 0 - x.getD 0 0, max_dist)

/-- The per-layer axis-partitioning loop shared verbatim by
`make_2d_layered_grid` (lines 220-248) and `make_1d_layered_grid`
(lines 425-453).  Each list element is `(layer_thickness, ncells, spacing)`
from the Python `zip`; the state arguments are `cumulative_thickness`,
`dx_last` and `layer_id`.  Returns the `total_x` list of per-layer node
arrays (`.ok none` when a geometric layer's loop fuel ran out). -/
def buildLayers (fuel : ℕ) (spacing_scale_factor : ℚ) :
    List (ℚ × ℕ × String) → ℚ → ℚ → ℕ → Except String (Option (List (List ℚ)))
  | [], _, _, _ => .ok (some [])
  | (layer_thickness, ncells, spacing) :: rest, cumulative_thickness, dx_last, layer_id =>
    let start_x := cumulative_thickness
    let stop_x := start_x + layer_thickness
    if spacing = "linear" then
      if layer_id = 0 then .error "Linear spacing not set up for the first layer yet..."
      else
        match linear_spacing fuel start_x dx_last spacing_scale_factor stop_x with
        | .error e => .error e
        | .ok none => .ok none
        | .ok (some (x, _, _, _)) =>
          match buildLayers fuel spacing_scale_factor rest stop_x dx_last (layer_id + 1) with
          | .error e => .error e
          | .ok none => .ok none
          | .ok (some tx) => .ok (some (if npAny x then x :: tx else tx))
    else
      match constant_spacing start_x stop_x ncells with
      | .error e => .error e
      | .ok (x, dx, _) =>
        match buildLayers fuel spacing_scale_factor rest stop_x dx (layer_id + 1) with
        | .error e => .error e
        | .ok none => .ok none
        | .ok (some tx) => .ok (some (if npAny x then x :: tx else tx))

/-! ## Grid Assembler and Layer Field Painter -/

/-- The dictionary returned by every grid constructor (keys `"x"`, `"y"`,
`"rho"`, `"u"`, `"v"`, `"p"`, `"xc"`, `"yc"`, `"n_ghost_layers"`).  The 2D
mesh arrays follow the numpy `meshgrid(y, x)` convention of the source:
shape `(len x, len y)`, `x[i][j] = x_axis i`, `y[i][j] = y_axis j`.  Units
(`cm`, `g/cc`, `cm/s`, `barye`) are carried implicitly: every magnitude is
already in its canonical cgs unit, so `.to(...).m` is the identity. -/
structure Grid where
  x : List (List ℚ)
  y : List (List ℚ)
  rho : List (List ℚ)
  u : List (List ℚ)
  v : List (List ℚ)
  p : List (List ℚ)
  xc : List (List ℚ)
  yc : List (List ℚ)
  n_ghost_layers : ℕ
deriving Repr, DecidableEq

/-- Ghost padding of the x axis in `make_2d_layered_grid` (lines 276-300):
prepend/append 1, 2 or 3 nodes, each a further multiple of the boundary
cell width; any other ghost count raises. -/
def pad_x_axis (n_ghost_layers : ℕ) (ldx rdx : ℚ) (x : List ℚ) : Except String (List ℚ) :=
  let x0 := x.headI
  let xl := x.getLastD 0
  if n_ghost_layers = 1 then
    .ok ([x0 - ldx] ++ x ++ [xl + rdx])
  else if n_ghost_layers = 2 then
    .ok ([x0 - 2 * ldx, x0 - ldx] ++ x ++ [xl + rdx, xl + 2 * rdx])
  else if n_ghost_layers = 3 then
    .ok ([x0 - 3 * ldx, x0 - 2 * ldx, x0 - ldx] ++ x ++ [xl + rdx, xl + 2 * rdx, xl + 3 * rdx])
  else
    .error "Unable to work with n_ghost_layers that are not 1 2, or 3"

/-- The `ghost_layers` index list of `make_2d_layered_grid` (lines 348-356).
The list itself is never read afterwards, but the `else` branch raises, so
the computation is kept. -/
def ghost_layers_list (n_ghost_layers : ℕ) : Except String (List ℤ) :=
  if n_ghost_layers = 1 then .ok [0, -1]
  else if n_ghost_layers = 2 then .ok [0, 1, -2, -1]
  else if n_ghost_layers = 3 then .ok [0, 1, 2, -3, -2, -1]
  else .error "Unable to work with n_ghost_layers that are not 1 or 2"

/-- The `layer_cell_idx_ranges` loop (lines 304-320 and 471-487): for layer
`idx` (of `L` layers) find the first and last cell-center index whose
coordinate lies in `[start_x, end_x)`; `loc[0]` on an empty match raises
`IndexError`.  `xpad` is the ghost-padded node array, `xc` the cell-center
estimate `x[:-1] + diff/4` of lines 301-302, `cum` the cumulative layer
thicknesses.  The recursion argument counts the remaining layers. -/
def layer_ranges_aux (xpad xc cum : List ℚ) (L : ℕ) :
    ℕ → ℕ → Except String (List (ℕ × ℕ))
  | 0, _ => .ok []
  | rem + 1, layer_idx =>
    let start_x := if layer_idx = 0 then xpad.headI else cum.getD (layer_idx - 1) 0
    let end_x :=
      if layer_idx = 0 then cum.getD 0 0
      else if layer_idx = L - 1 then xpad.getLastD 0
      else cum.getD layer_idx 0
    let loc := (List.range xc.length).filter
      (fun i => decide (start_x ≤ xc.getD i 0) && decide (xc.getD i 0 < end_x))
    match loc.head?, loc.getLast? with
    | some start_i, some end_i =>
      match layer_ranges_aux xpad xc cum L rem (layer_idx + 1) with
      | .error e => .error e
      | .ok rs => .ok ((start_i, end_i) :: rs)
    | _, _ => .error "IndexError"

/-- `layer_cell_idx_ranges` for all layers. -/
def layer_ranges (xpad xc : List ℚ) (thicknesses : List ℚ) : Except String (List (ℕ × ℕ)) :=
  layer_ranges_aux xpad xc (cumsum thicknesses 0) thicknesses.length thicknesses.length 0

/-- `rho[s:-1, :] = val`: overwrite every row `r` with `s ≤ r < len - 1`
by the constant `val` (row lengths are preserved). -/
def sliceAssignToLast (rho : List (List ℚ)) (s : ℕ) (val : ℚ) : List (List ℚ) :=
  rho.enum.map (fun pr =>
    if s ≤ pr.1 ∧ pr.1 + 1 < rho.length then List.replicate pr.2.length val else pr.2)

/-- `rho[s:e, :] = val` with a non-negative end index `e` (the dead
`layer_idx == len(...)` branch of the painting loop would use this). -/
def sliceAssign (rho : List (List ℚ)) (s e : ℕ) (val : ℚ) : List (List ℚ) :=
  rho.enum.map (fun pr =>
    if s ≤ pr.1 ∧ pr.1 < e then List.replicate pr.2.length val else pr.2)

/-- The field-painting loop (lines 333-346 and 498-511) for one cell
array: for each `(layer_idx, layer)` in `enumerate(layer_cell_idx_ranges)`,
if `layer_idx == n` (with `n = len(layer_cell_idx_ranges)`) assign rows
`layer[0]..layer[1]`, otherwise rows `layer[0]..len-2` (`rho[s:-1]`), with
the value `vals[layer_idx]` (an out-of-range lookup raises `IndexError`).
The four fields rho/u/v/p are painted by one Python loop; painting each
array separately is equivalent and is what this function does. -/
def paintLoop (n : ℕ) (vals : List ℚ) :
    ℕ → List (ℕ × ℕ) → List (List ℚ) → Except String (List (List ℚ))
  | _, [], rho => .ok rho
  | layer_idx, layer :: rest, rho =>
    match vals.get? layer_idx with
    | none => .error "IndexError"
    | some val =>
      let rho' := if layer_idx = n then sliceAssign rho layer.1 layer.2 val
        else sliceAssignToLast rho layer.1 val
      paintLoop n vals (layer_idx + 1) rest rho'

/-- Guard-free version of the painting loop: every layer paints
`rho[s:-1, :]`, in order, later layers overwriting earlier ones.  Used to
state that the `layer_idx == len(...)` guard of the source is dead. -/
def paintPure (pairs : List (ℕ × ℚ)) (rho : List (List ℚ)) : List (List ℚ) :=
  pairs.foldl (fun acc pr => sliceAssignToLast acc pr.1 pr.2) rho

/-- `rho[i, :] = vals[i] for i in [0, -1]` (lines 358-362 and 514-518):
overwrite the extreme rows with the boundary layers' values; raises
`IndexError` when `vals` is empty. -/
def ghostOverwrite (vals : List ℚ) (rho : List (List ℚ)) : Except String (List (List ℚ)) :=
  match vals.head? with
  | some v0 =>
    let vl := vals.getLastD 0
    let rho0 := rho.enum.map (fun pr =>
      if pr.1 = 0 then List.replicate pr.2.length v0 else pr.2)
    .ok (rho0.enum.map (fun pr =>
      if pr.1 + 1 = rho0.length then List.replicate pr.2.length vl else pr.2))
  | none => .error "IndexError"

/-! ## The four grid constructors -/

/-- `make_uniform_grid` (lines 43-112): uniform 2D grid with ghost layers,
all four fields initialized to ones.  The configuration file argument is
abstracted to the limiter string it provides. -/
def make_uniform_grid (limiter : String) (n_cells : ℕ × ℕ) (xrange yrange : ℚ × ℚ) :
    Except String Grid :=
  match get_n_ghost_layers_required limiter with
  | .error e => .error e
  | .ok n_ghost_layers =>
    let dx := (xrange.2 - xrange.1) / (n_cells.1 : ℚ)
    let dy := (yrange.2 - yrange.1) / (n_cells.2 : ℚ)
    let x := linspace (xrange.1 - n_ghost_layers * dx) (xrange.2 + n_ghost_layers * dx)
      ((n_cells.1 + 1) + n_ghost_layers * 2)
    let y := linspace (yrange.1 - n_ghost_layers * dy) (yrange.2 + n_ghost_layers * dy)
      ((n_cells.2 + 1) + n_ghost_layers * 2)
    let x_2d := x.map (fun xi => y.map (fun _ => xi))
    let y_2d := x.map (fun _ => y)
    let ones := x.dropLast.map (fun _ => y.dropLast.map (fun _ => (1 : ℚ)))
    let xc := x.dropLast.map (fun xi => y.dropLast.map (fun _ => xi + dx / 2))
    let yc := x.dropLast.map (fun _ => y.dropLast.map (fun yj => yj + dy / 2))
    .ok ⟨x_2d, y_2d, ones, ones, ones, ones, xc, yc, n_ghost_layers⟩

/-- `make_1d_in_x_uniform_grid` (lines 541-600): uniform grid in x, a thin
`arange`-built y axis; note the source adds `dx/2` (not `dy/2`) to `yc`. -/
def make_1d_in_x_uniform_grid (limiter : String) (n_cells : ℕ) (limits : ℚ × ℚ) :
    Except String Grid :=
  match get_n_ghost_layers_required limiter with
  | .error e => .error e
  | .ok n_ghost_layers =>
    let dx := (limits.2 - limits.1) / (n_cells : ℚ)
    let x := linspace (limits.1 - n_ghost_layers * dx) (limits.2 + n_ghost_layers * dx)
      ((n_cells + 1) + n_ghost_layers * 2)
    let y := (List.range (2 * n_ghost_layers + 2)).map
      (fun (j : ℕ) => ((j : ℚ) - (n_ghost_layers : ℚ)) * dx - dx / 2)
    let x_2d := x.map (fun xi => y.map (fun _ => xi))
    let y_2d := x.map (fun _ => y)
    let ones := x.dropLast.map (fun _ => y.dropLast.map (fun _ => (1 : ℚ)))
    let xc := x.dropLast.map (fun xi => y.dropLast.map (fun _ => xi + dx / 2))
    let yc := x.dropLast.map (fun _ => y.dropLast.map (fun yj => yj + dx / 2))
    .ok ⟨x_2d, y_2d, ones, ones, ones, ones, xc, yc, n_ghost_layers⟩

/-- `make_2d_layered_grid` (lines 166-382).  `dy?` is the optional explicit
y spacing (`none`, like a zero value, is falsy in Python and selects the
minimum-x-spacing default).  `.ok none` propagates an exhausted
geometric-spacing fuel; `.error` models every raise (including numpy
`IndexError`/`ValueError` on the indexing noted at each step). -/
def make_2d_layered_grid (fuel : ℕ) (layer_thicknesses : List ℚ) (layer_n_cells : List ℕ)
    (layer_density layer_u layer_v layer_pressure : List ℚ) (y_thickness : ℚ)
    (dy? : Option ℚ) (layer_spacing : List String) (spacing_scale_factor : ℚ)
    (limiter : String) : Except String (Option Grid) :=
  let spacing := if layer_spacing.isEmpty
    then List.replicate layer_thicknesses.length "constant" else layer_spacing
  match get_n_ghost_layers_required limiter with
  | .error e => .error e
  | .ok n_ghost_layers =>
    match buildLayers fuel spacing_scale_factor
        (layer_thicknesses.zip (layer_n_cells.zip spacing)) 0 0 0 with
    | .error e => .error e
    | .ok none => .ok none
    | .ok (some total_x) =>
      if total_x.isEmpty then .error "ValueError" else
      let x := npUnique total_x.flatten
      if x.length < 2 then .error "IndexError" else
      let ldx := x.getD 1 0 - x.getD 0 0
      let rdx := x.getD (x.length - 1) 0 - x.getD (x.length - 2) 0
      let dyv := match dy? with
        | none => npMin (npDiff x)
        | some d => if d = 0 then npMin (npDiff x) else d
      let n_y_cells := (max 1 (npRound (y_thickness / dyv))).toNat
      let y := linspace (0 - n_ghost_layers * dyv) (y_thickness + n_ghost_layers * dyv)
        ((n_y_cells + 1) + n_ghost_layers * 2)
      match pad_x_axis n_ghost_layers ldx rdx x with
      | .error e => .error e
      | .ok xp =>
        let dxq := (npDiff xp).map (· / 2)
        let xcDet := (xp.dropLast.zip dxq).map (fun pr => pr.1 + pr.2 / 2)
        match layer_ranges xp xcDet layer_thicknesses with
        | .error e => .error e
        | .ok ranges =>
          let zeros := xp.dropLast.map (fun _ => y.dropLast.map (fun _ => (0 : ℚ)))
          match paintLoop ranges.length layer_density 0 ranges zeros,
              paintLoop ranges.length layer_u 0 ranges zeros,
              paintLoop ranges.length layer_v 0 ranges zeros,
              paintLoop ranges.length layer_pressure 0 ranges zeros with
          | .ok rho0, .ok u0, .ok v0, .ok p0 =>
            match ghost_layers_list n_ghost_layers with
            | .error e => .error e
            | .ok _ =>
              match ghostOverwrite layer_density rho0, ghostOverwrite layer_u u0,
                  ghostOverwrite layer_v v0, ghostOverwrite layer_pressure p0 with
              | .ok rho, .ok u, .ok v, .ok p =>
                let dy2 := (npDiff y).headI / 2
                let dx2 := (npDiff xp).headI / 2
                let x_2d := xp.map (fun xi => y.map (fun _ => xi))
                let y_2d := xp.map (fun _ => y)
                let xc := xp.dropLast.map (fun xi => y.dropLast.map (fun _ => xi + dx2))
                let yc := xp.dropLast.map (fun _ => y.dropLast.map (fun yj => yj + dy2))
                .ok (some ⟨x_2d, y_2d, rho, u, v, p, xc, yc, n_ghost_layers⟩)
              | .error e, _, _, _ => .error e
              | _, .error e, _, _ => .error e
              | _, _, .error e, _ => .error e
              | _, _, _, .error e => .error e
          | .error e, _, _, _ => .error e
          | _, .error e, _, _ => .error e
          | _, _, .error e, _ => .error e
          | _, _, _, .error e => .error e

/-- `make_1d_layered_grid` (lines 385-538).  Note that the source pads the
x axis with exactly one ghost node per side (line 467) and fixes the y axis
to 4 nodes, whatever `n_ghost_layers` the configuration requires. -/
def make_1d_layered_grid (fuel : ℕ) (layer_thicknesses : List ℚ) (layer_n_cells : List ℕ)
    (layer_density layer_u layer_v layer_pressure : List ℚ) (layer_spacing : List String)
    (spacing_scale_factor : ℚ) (limiter : String) : Except String (Option Grid) :=
  match get_n_ghost_layers_required limiter with
  | .error e => .error e
  | .ok n_ghost_layers =>
    let spacing := if layer_spacing.isEmpty
      then List.replicate layer_thicknesses.length "constant" else layer_spacing
    match buildLayers fuel spacing_scale_factor
        (layer_thicknesses.zip (layer_n_cells.zip spacing)) 0 0 0 with
    | .error e => .error e
    | .ok none => .ok none
    | .ok (some total_x) =>
      if total_x.isEmpty then .error "ValueError" else
      let x := npUnique total_x.flatten
      if x.length < 2 then .error "IndexError" else
      let ldx := x.getD 1 0 - x.getD 0 0
      let rdx := x.getD (x.length - 1) 0 - x.getD (x.length - 2) 0
      let y := ([-ldx, 0, ldx, ldx * 2] : List ℚ).map (fun yj => yj - ldx / 2)
      let xp := [x.headI - ldx] ++ x ++ [x.getLastD 0 + rdx]
      let dxq := (npDiff xp).map (· / 2)
      let xcDet := (xp.dropLast.zip dxq).map (fun pr => pr.1 + pr.2 / 2)
      match layer_ranges xp xcDet layer_thicknesses with
      | .error e => .error e
      | .ok ranges =>
        let zeros := xp.dropLast.map (fun _ => List.replicate 3 (0 : ℚ))
        match paintLoop ranges.length layer_density 0 ranges zeros,
            paintLoop ranges.length layer_u 0 ranges zeros,
            paintLoop ranges.length layer_v 0 ranges zeros,
            paintLoop ranges.length layer_pressure 0 ranges zeros with
        | .ok rho0, .ok u0, .ok v0, .ok p0 =>
          match ghostOverwrite layer_density rho0, ghostOverwrite layer_u u0,
              ghostOverwrite layer_v v0, ghostOverwrite layer_pressure p0 with
          | .ok rho, .ok u, .ok v, .ok p =>
            let dy2 := (npDiff y).headI / 2
            let dx2 := (npDiff xp).headI / 2
            let x_2d := xp.map (fun xi => y.map (fun _ => xi))
            let y_2d := xp.map (fun _ => y)
            let xc := xp.dropLast.map (fun xi => y.dropLast.map (fun _ => xi + dx2))
            let yc := xp.dropLast.map (fun _ => y.dropLast.map (fun yj => yj + dy2))
            .ok (some ⟨x_2d, y_2d, rho, u, v, p, xc, yc, n_ghost_layers⟩)
          | .error e, _, _, _ => .error e
          | _, .error e, _, _ => .error e
          | _, _, .error e, _ => .error e
          | _, _, _, .error e => .error e
        | .error e, _, _, _ => .error e
        | _, .error e, _, _ => .error e
        | _, _, .error e, _ => .error e
        | _, _, _, .error e => .error e

/-- The filename-suffix logic of `write_initial_hdf5` (lines 615-616):
`if not filename.endswith(".h5") or not filename.endswith(".hdf5"):
filename += ".h5"`.  Only this pure fragment of the writer is modelled;
the HDF5 I/O itself is an external collaborator. -/
def write_initial_hdf5_filename (filename : String) : String :=
  if ¬ pyEndswith filename ".h5" ∨ ¬ pyEndswith filename ".hdf5" then
    filename ++ ".h5"
  else filename

/-! ## Claim theorems -/

/-- C3: for every limiter name whose quote-stripped form is in the recognized
set, `get_n_ghost_layers_required` returns 3 when the name is one of
{TVD5, MLP5, eMLP5} and 2 otherwise; for every name whose stripped form is
outside the set it raises. -/
theorem claim3_limiter_policy (s : String) :
    (stripQuotes s ∈ valid_limiters →
      get_n_ghost_layers_required s =
        .ok (if stripQuotes s ∈ five_point_limiters then 3 else 2)) ∧
    (stripQuotes s ∉ valid_limiters →
      get_n_ghost_layers_required s = .error "Invalid limiter type in the input.ini file") := by
  refine ⟨fun h => ?_, fun h => ?_⟩
  · simp only [get_n_ghost_layers_required, if_pos h]
    split <;> rfl
  · simp only [get_n_ghost_layers_required, if_neg h]

/-- Witness for C3 at the concrete limiters `'TVD5'` (quoted), `minmod`
and the unrecognized `bogus`. -/
theorem claim3_limiter_policy_witness :
    get_n_ghost_layers_required "'TVD5'" = .ok 3 ∧
    get_n_ghost_layers_required "minmod" = .ok 2 ∧
    get_n_ghost_layers_required "bogus" = .error "Invalid limiter type in the input.ini file" := by
  refine ⟨?_, ?_, (claim3_limiter_policy "bogus").2 (by decide)⟩
  · have h := (claim3_limiter_policy "'TVD5'").1 (by decide)
    rwa [if_pos (by decide : stripQuotes "'TVD5'" ∈ five_point_limiters)] at h
  · have h := (claim3_limiter_policy "minmod").1 (by decide)
    rwa [if_neg (by decide : ¬ stripQuotes "minmod" ∈ five_point_limiters)] at h

/-- C4 (code bug): because the suffix test uses `or` where the intent is
`and`, `write_initial_hdf5` appends `".h5"` to every filename, including
names that already end in `".h5"` or `".hdf5"` — contradicting the claim
that such names are used unchanged. -/
theorem claim4_suffix_always_appended :
    write_initial_hdf5_filename "shock.h5" = "shock.h5.h5" ∧
    write_initial_hdf5_filename "shock.hdf5" = "shock.hdf5.h5" ∧
    write_initial_hdf5_filename "shock" = "shock.h5" ∧
    "shock.h5.h5" ≠ "shock.h5" := by decide

set_option maxRecDepth 10000 in
/-- C8: `make_1d_in_x_uniform_grid` with `n_cells = 2000`, limits `(0, 1)`
and a TVD3 limiter yields `n_ghost_layers = 2` and an x-node axis of
length `2005 = 2000 + 1 + 2*2`. -/
theorem claim8_end_to_end_1d_in_x :
    (make_1d_in_x_uniform_grid "TVD3" 2000 (0, 1)).map
      (fun G => (G.n_ghost_layers, G.x.length)) = .ok (2, 2005) := by rfl

/-- C10: every ghost-layer count accepted by the policy is 2 or 3, and for
those values both raising branches of `make_2d_layered_grid` — the axis
padding (lines 299-300) and the ghost-index list (lines 355-356) — take
their non-raising arm. -/
theorem claim10_unreachable_ghost_branches :
    (∀ s n, get_n_ghost_layers_required s = .ok n → n = 2 ∨ n = 3) ∧
    (∀ n ldx rdx xs, n = 2 ∨ n = 3 →
      (∃ ys, pad_x_axis n ldx rdx xs = .ok ys) ∧ ∃ l, ghost_layers_list n = .ok l) := by
  constructor
  · intro s n h
    simp only [get_n_ghost_layers_required] at h
    split at h
    · split at h
      · right; exact (Except.ok.injEq _ _).mp h.symm
      · left; exact (Except.ok.injEq _ _).mp h.symm
    · exact absurd h (by simp)
  · rintro n ldx rdx xs (rfl | rfl) <;> exact ⟨⟨_, rfl⟩, ⟨_, rfl⟩⟩

/-- Witness for C10 at the TVD3 configuration and a 3-ghost-layer padding. -/
theorem claim10_unreachable_ghost_branches_witness :
    ((2 : ℕ) = 2 ∨ (2 : ℕ) = 3) ∧
    ((∃ ys, pad_x_axis 3 1 1 [0, 1] = .ok ys) ∧ ∃ l, ghost_layers_list 3 = .ok l) :=
  ⟨claim10_unreachable_ghost_branches.1 "TVD3" 2 (by decide),
    claim10_unreachable_ghost_branches.2 3 1 1 [0, 1] (Or.inr rfl)⟩

set_option maxHeartbeats 4000000 in
/-- C1 (code bug): with two constant-spacing layers of thicknesses 1 and 1
and cell counts 1 and 2 (TVD3 config, so cell widths 1 and 1/2 and padded
x axis `[-2, -1, 0, 1, 3/2, 2, 5/2, 3]`), the returned cell center
`xc[3][0]` is `x[3] + (x[1]-x[0])/2 = 3/2` — the half-spacing of the
FIRST cell — while the midpoint of the adjacent nodes `x[3] = 1` and
`x[4] = 3/2` is `5/4`.  The cell-center arrays of the layered constructors
are not node midpoints on non-uniform axes. -/
theorem claim1_layered_xc_not_midpoint :
    (make_2d_layered_grid 100 [1, 1] [1, 2] [1, 2] [0, 0] [0, 0] [1, 1] (1/2) (some (1/2))
      [] (21/20) "TVD3").map (fun o => o.map (fun G =>
        ((G.xc.getD 3 []).getD 0 0,
         ((G.x.getD 3 []).getD 0 0 + (G.x.getD 4 []).getD 0 0) / 2)))
      = .ok (some (3/2, 5/4)) ∧ (3/2 : ℚ) ≠ 5/4 := by
  have h : get_n_ghost_layers_required "TVD3" = .ok 2 := by decide
  refine ⟨?_, by norm_num⟩
  norm_num +decide [make_2d_layered_grid, h, buildLayers, constant_spacing, linear_spacing,
    linspace, List.range_succ, npAny, npUnique, sortQ, insertSorted, dedupAdj, npDiff,
    npMin, npRound, pad_x_axis, ghost_layers_list, layer_ranges, layer_ranges_aux, cumsum,
    paintLoop, sliceAssignToLast, sliceAssign, ghostOverwrite, List.enum, List.enumFrom,
    List.filter, List.zip, List.zipWith, Except.map]

set_option maxHeartbeats 1000000 in
/-- C2 (code bug): a one-layer 1D layered grid under a TVD3 configuration
reports `n_ghost_layers = 2` but its x axis has `5 = 3 + 2*1` nodes — the
source pads exactly one node per side (line 467), not `n_ghost_layers`
nodes as the claim (and the returned metadata) state. -/
theorem claim2_1d_layered_pads_one_node :
    (make_1d_layered_grid 100 [1] [2] [1] [0] [0] [1] [] (21/20) "TVD3").map (fun o =>
      o.map (fun G => (G.n_ghost_layers, G.x.length))) = .ok (some (2, 5)) ∧
    (5 : ℕ) ≠ 3 + 2 * 2 := by
  have h : get_n_ghost_layers_required "TVD3" = .ok 2 := by decide
  refine ⟨?_, by decide⟩
  norm_num +decide [make_1d_layered_grid, h, buildLayers, constant_spacing, linear_spacing,
    linspace, List.range_succ, npAny, npUnique, sortQ, insertSorted, dedupAdj, npDiff,
    npMin, pad_x_axis, layer_ranges, layer_ranges_aux, cumsum,
    paintLoop, sliceAssignToLast, sliceAssign, ghostOverwrite, List.enum, List.enumFrom,
    List.filter, List.zip, List.zipWith, Except.map]

/-- Invariant of the `linear_spacing` loop: with positive lower-bounded step
and scale at least 1, enough fuel makes the loop return, the returned
(reversed) node list extends the input, stays strictly decreasing (it is
built newest-first), and its newest node exceeds `max_dist`. -/
theorem spacingLoop_ok (dx0 scale max_dist : ℚ) (h2 : 0 < dx0) (h3 : 1 ≤ scale) :
    ∀ (f : ℕ) (dx : ℚ) (xs : List ℚ), dx0 ≤ dx → xs ≠ [] → List.Chain' (· > ·) xs →
      max_dist - xs.headI < ((f : ℚ) + 1) * dx0 →
      ∃ pre out, spacingLoop scale max_dist (f + 1) dx xs = some out ∧
        out = pre ++ xs ∧ pre ≠ [] ∧ List.Chain' (· > ·) out ∧
        ∃ h', out.head? = some h' ∧ max_dist < h' := by
  intro f
  induction f with
  | zero =>
    intro dx xs hdx hne hch hb
    obtain ⟨a, t, rfl⟩ : ∃ a t, xs = a :: t := by
      cases xs with
      | nil => exact absurd rfl hne
      | cons a t => exact ⟨a, t, rfl⟩
    have hcond : max_dist < (a :: t).headI + dx := by
      have : max_dist - a < dx0 := by simpa using hb
      have : max_dist - a < dx := lt_of_lt_of_le this hdx
      simpa [List.headI] using by linarith
    refine ⟨[(a :: t).headI + dx], _, ?_, rfl, by simp, ?_, ?_⟩
    · simp only [spacingLoop, if_pos hcond]; rfl
    · exact List.chain'_cons.mpr ⟨by have := lt_of_lt_of_le h2 hdx; simp [List.headI]; linarith,
        hch⟩
    · exact ⟨_, rfl, hcond⟩
  | succ f ih =>
    intro dx xs hdx hne hch hb
    obtain ⟨a, t, rfl⟩ : ∃ a t, xs = a :: t := by
      cases xs with
      | nil => exact absurd rfl hne
      | cons a t => exact ⟨a, t, rfl⟩
    by_cases hcond : max_dist < (a :: t).headI + dx
    · refine ⟨[(a :: t).headI + dx], _, ?_, rfl, by simp, ?_, ?_⟩
      · simp only [spacingLoop, if_pos hcond]; rfl
      · exact List.chain'_cons.mpr ⟨by have := lt_of_lt_of_le h2 hdx; simp [List.headI]; linarith,
          hch⟩
      · exact ⟨_, rfl, hcond⟩
    · have hdx' : dx0 ≤ dx * scale := by
        have hd : 0 < dx := lt_of_lt_of_le h2 hdx
        calc dx0 ≤ dx := hdx
        _ = dx * 1 := by ring
        _ ≤ dx * scale := by nlinarith
      have hch' : List.Chain' (· > ·) (((a :: t).headI + dx) :: a :: t) := by
        refine List.chain'_cons.mpr ⟨?_, hch⟩
        have := lt_of_lt_of_le h2 hdx
        simp [List.headI]; linarith
      have hb' : max_dist - (((a :: t).headI + dx) :: a :: t).headI < ((f : ℚ) + 1) * dx0 := by
        have : max_dist - a < ((f : ℚ) + 1 + 1) * dx0 := by
          simpa [List.headI] using hb
        have hd0 : dx0 ≤ dx := hdx
        simp only [List.headI]
        linarith
      obtain ⟨pre, out, heq, hout, hpre, hcho, h', hh, hm⟩ :=
        ih (dx * scale) (((a :: t).headI + dx) :: a :: t) hdx' (by simp) hch' hb'
      refine ⟨pre ++ [(a :: t).headI + dx], out, ?_, ?_, by simp, hcho, ⟨h', hh, hm⟩⟩
      · rw [show f + 1 + 1 = (f + 1) + 1 from rfl]
        simp only [spacingLoop, if_neg hcond]
        exact heq
      · rw [hout]; simp

/-- C5: for `start < max_dist`, `initial_dx > 0` and `scale ≥ 1`,
`linear_spacing` terminates (some fuel suffices) and returns a strictly
increasing node array starting at `start` whose last node exceeds
`max_dist` (the overshoot node is kept), together with the first step,
last step and the data-dependent node count `len(x)`. -/
theorem claim5_linear_spacing_terminates (start initial_dx scale max_dist : ℚ)
    (h1 : start < max_dist) (h2 : 0 < initial_dx) (h3 : 1 ≤ scale) :
    ∃ fuel x dx_first dx_last ncells,
      linear_spacing fuel start initial_dx scale max_dist
        = .ok (some (x, dx_first, dx_last, ncells)) ∧
      x.Chain' (· < ·) ∧ x.head? = some start ∧
      (∃ last, x.getLast? = some last ∧ max_dist < last) ∧
      ncells = x.length ∧ 2 ≤ x.length ∧
      dx_first = x.getD 1 0 - x.getD 0 0 ∧
      dx_last = x.getD (x.length - 1) 0 - x.getD (x.length - 2) 0 := by
  obtain ⟨n, hn⟩ := exists_nat_gt ((max_dist - start) / initial_dx)
  have hb : max_dist - start < ((n : ℚ) + 1) * initial_dx := by
    have h := (div_lt_iff₀ h2).mp hn
    nlinarith
  obtain ⟨pre, out, heq, hout, hpre, hcho, h', hh, hm⟩ :=
    spacingLoop_ok initial_dx scale max_dist h2 h3 n initial_dx [start]
      le_rfl (by simp) (by simp) (by simpa using hb)
  refine ⟨n + 1, out.reverse, _, _, _, ?_, ?_, ?_, ?_, rfl, ?_, rfl, rfl⟩
  · simp only [linear_spacing, if_neg (not_le.mpr h1), heq]
  · rw [List.chain'_reverse]
    simpa [flip] using hcho
  · rw [List.head?_reverse, hout, List.getLast?_concat]
  · exact ⟨h', by rwa [List.getLast?_reverse], hm⟩
  · have : out.length = pre.length + 1 := by rw [hout]; simp
    have hp : 1 ≤ pre.length := List.length_pos.mpr hpre
    simp only [List.length_reverse]
    omega

/-- Witness for C5 at `start = 0`, `initial_dx = 1`, `scale = 1`,
`max_dist = 1/2`. -/
theorem claim5_linear_spacing_terminates_witness :
    ∃ fuel x dx_first dx_last ncells,
      linear_spacing fuel 0 1 1 (1/2) = .ok (some (x, dx_first, dx_last, ncells)) ∧
      x.Chain' (· < ·) ∧ x.head? = some 0 ∧
      (∃ last, x.getLast? = some last ∧ 1/2 < last) ∧
      ncells = x.length ∧ 2 ≤ x.length ∧
      dx_first = x.getD 1 0 - x.getD 0 0 ∧
      dx_last = x.getD (x.length - 1) 0 - x.getD (x.length - 2) 0 :=
  claim5_linear_spacing_terminates 0 1 1 (1/2) (by norm_num) (by norm_num) le_rfl

/-- C6 counterexample: a constant-spacing layer with `ncells = 0` makes the
axis-partitioning loop fail (numpy `IndexError` computing `x[1] - x[0]` on
a one-node array) although no geometric spacing is requested anywhere — so
"geometric on layer 0" and "start ≥ max distance" are NOT the only
spacing-related failure conditions. -/
theorem claim6_counterexample_ncells_zero :
    buildLayers 9 (21/20) [((1 : ℚ), (0 : ℕ), "constant")] 0 0 0 = .error "IndexError" ∧
    ∀ l ∈ [((1 : ℚ), (0 : ℕ), "constant")], l.2.2 ≠ "linear" := by
  constructor
  · norm_num +decide [buildLayers, constant_spacing, linspace, List.range_succ]
  · decide

/-- `linear_spacing` raises exactly when `start >= max_dist` (its only
raise site, line 143-144). -/
theorem linear_spacing_error_iff (fuel : ℕ) (start initial_dx scale max_dist : ℚ) :
    (∃ e, linear_spacing fuel start initial_dx scale max_dist = .error e) ↔
      max_dist ≤ start := by
  constructor
  · rintro ⟨e, he⟩
    by_contra hlt
    simp only [linear_spacing, if_neg hlt] at he
    split at he <;> simp at he
  · intro h
    exact ⟨"Error: start >= max_dist", by simp only [linear_spacing, if_pos h]⟩

/-- `constant_spacing` fails (numpy `IndexError` on `x[1]`) exactly when
`ncells = 0`. -/
theorem constant_spacing_error_iff (start max_dist : ℚ) (ncells : ℕ) :
    (∃ e, constant_spacing start max_dist ncells = .error e) ↔ ncells = 0 := by
  have hlen : (linspace start max_dist (ncells + 1)).length = ncells + 1 := by
    unfold linspace
    rw [List.length_map, List.length_range]
  constructor
  · rintro ⟨e, he⟩
    simp only [constant_spacing, hlen] at he
    split at he
    · omega
    · simp at he
  · rintro rfl
    exact ⟨_, by simp only [constant_spacing, hlen]; rfl⟩

/-- Every failure of the axis-partitioning phase comes from a layer that
requests geometric spacing at position 0, a geometric layer of nonpositive
thickness (so that `start >= max_dist` inside `linear_spacing`), or a
constant layer with zero cells. -/
theorem buildLayers_error_characterize (fuel : ℕ) (sc : ℚ) :
    ∀ (layers : List (ℚ × ℕ × String)) (cum dxl : ℚ) (lid : ℕ) (e : String),
      buildLayers fuel sc layers cum dxl lid = .error e →
      ∃ k l, layers.get? k = some l ∧
        ((l.2.2 = "linear" ∧ (lid + k = 0 ∨ l.1 ≤ 0)) ∨ (l.2.2 ≠ "linear" ∧ l.2.1 = 0)) := by
  intro layers
  induction layers with
  | nil => intro cum dxl lid e h; simp [buildLayers] at h
  | cons hd rest ih =>
    obtain ⟨t, nc, sp⟩ := hd
    intro cum dxl lid e h
    simp only [buildLayers] at h
    split at h
    · rename_i hsp
      split at h
      · rename_i hlid
        exact ⟨0, (t, nc, sp), rfl, Or.inl ⟨hsp, Or.inl (by omega)⟩⟩
      · split at h
        · rename_i e' hlin
          have : t ≤ 0 := by
            have := (linear_spacing_error_iff fuel cum dxl sc (cum + t)).mp ⟨e', hlin⟩
            linarith
          exact ⟨0, (t, nc, sp), rfl, Or.inl ⟨hsp, Or.inr this⟩⟩
        · simp at h
        · split at h
          · rename_i e' hrest
            obtain ⟨k, l, hget, hcond⟩ := ih _ _ _ _ (by rw [hrest])
            refine ⟨k + 1, l, by simpa using hget, ?_⟩
            rcases hcond with ⟨hl, h0 | ht⟩ | hr
            · omega
            · exact Or.inl ⟨hl, Or.inr ht⟩
            · exact Or.inr hr
          · simp at h
          · simp at h
    · rename_i hsp
      split at h
      · rename_i e' hconst
        have : nc = 0 := (constant_spacing_error_iff cum (cum + t) nc).mp ⟨e', hconst⟩
        exact ⟨0, (t, nc, sp), rfl, Or.inr ⟨hsp, this⟩⟩
      · split at h
        · rename_i e' hrest
          obtain ⟨k, l, hget, hcond⟩ := ih _ _ _ _ (by rw [hrest])
          refine ⟨k + 1, l, by simpa using hget, ?_⟩
          rcases hcond with ⟨hl, h0 | ht⟩ | hr
          · omega
          · exact Or.inl ⟨hl, Or.inr ht⟩
          · exact Or.inr hr
        · simp at h
        · simp at h

/-- C6 as amended: `linear_spacing` raises iff `start >= max_dist`;
requesting geometric spacing for layer 0 raises (the layered constructors
run this loop with `layer_id = 0`); and the only spacing-phase failures are
a layer-0 geometric request, a geometric layer with `start >= max_dist`
(nonpositive thickness), or — the condition the original claim misses — a
constant layer with `ncells = 0`. -/
theorem claim6_spacing_failure_characterization :
    (∀ (fuel : ℕ) (start initial_dx scale max_dist : ℚ),
      (∃ e, linear_spacing fuel start initial_dx scale max_dist = .error e) ↔
        max_dist ≤ start) ∧
    (∀ (fuel : ℕ) (sc t : ℚ) (nc : ℕ) (rest : List (ℚ × ℕ × String)) (cum dxl : ℚ),
      buildLayers fuel sc ((t, nc, "linear") :: rest) cum dxl 0
        = .error "Linear spacing not set up for the first layer yet...") ∧
    (∀ (fuel : ℕ) (sc : ℚ) (layers : List (ℚ × ℕ × String)) (cum dxl : ℚ) (lid : ℕ)
      (e : String),
      buildLayers fuel sc layers cum dxl lid = .error e →
      ∃ k l, layers.get? k = some l ∧
        ((l.2.2 = "linear" ∧ (lid + k = 0 ∨ l.1 ≤ 0)) ∨ (l.2.2 ≠ "linear" ∧ l.2.1 = 0))) := by
  refine ⟨linear_spacing_error_iff, fun fuel sc t nc rest cum dxl => ?_,
    buildLayers_error_characterize⟩
  simp [buildLayers]

/-- Witness for C6: the iff at `start = max_dist = 1`, and the
characterization applied to a concrete layer-0 geometric failure (whose
hypothesis is discharged by the layer-0 raising clause itself). -/
theorem claim6_spacing_failure_characterization_witness :
    (∃ e, linear_spacing 5 1 1 1 1 = .error e) ∧
    (∃ k l, [((1 : ℚ), (2 : ℕ), "linear")].get? k = some l ∧
      ((l.2.2 = "linear" ∧ (0 + k = 0 ∨ l.1 ≤ 0)) ∨ (l.2.2 ≠ "linear" ∧ l.2.1 = 0))) :=
  ⟨(claim6_spacing_failure_characterization.1 5 1 1 1 1).mpr le_rfl,
    claim6_spacing_failure_characterization.2.2 3 1 _ 0 0 0 _
      (claim6_spacing_failure_characterization.2.1 3 1 1 2 [] 0 0)⟩

/-- Row `i` of `rho[s:-1, :] = v`: rewritten to the constant when
`s ≤ i < len - 1`, untouched otherwise. -/
theorem sliceAssignToLast_getElem? (rho : List (List ℚ)) (s : ℕ) (v : ℚ) (i : ℕ) :
    (sliceAssignToLast rho s v)[i]? = (rho[i]?).map
      (fun row => if s ≤ i ∧ i + 1 < rho.length then List.replicate row.length v else row) := by
  simp only [sliceAssignToLast, List.getElem?_map, List.getElem?_enum]
  cases h : rho[i]? <;> simp

/-- `rho[s:-1, :] = v` preserves the number of rows. -/
theorem sliceAssignToLast_length (rho : List (List ℚ)) (s : ℕ) (v : ℚ) :
    (sliceAssignToLast rho s v).length = rho.length := by
  simp [sliceAssignToLast]

/-- Painting preserves the number of rows. -/
theorem paintPure_length (pairs : List (ℕ × ℚ)) :
    ∀ rho, (paintPure pairs rho).length = rho.length := by
  induction pairs with
  | nil => intro rho; rfl
  | cons p rest ih =>
    intro rho
    simp only [paintPure, List.foldl_cons] at ih ⊢
    rw [ih, sliceAssignToLast_length]

/-- The value of a painted row below the last: the latest layer whose start
index is at or below the row wins (later layers overwrite earlier ones);
rows no layer reaches keep their initial value. -/
theorem paintPure_getElem? (pairs : List (ℕ × ℚ)) :
    ∀ (rho : List (List ℚ)) (i : ℕ), i + 1 < rho.length →
      (paintPure pairs rho)[i]? = (rho[i]?).map (fun row =>
        (((pairs.filter (fun p => p.1 ≤ i)).getLast?).map Prod.snd).elim row
          (fun v => List.replicate row.length v)) := by
  induction pairs with
  | nil =>
    intro rho i hi
    simp only [paintPure, List.foldl_nil, List.filter_nil, List.getLast?]
    cases rho[i]? <;> simp
  | cons p rest ih =>
    intro rho i hi
    have hstep : (paintPure (p :: rest) rho) = paintPure rest (sliceAssignToLast rho p.1 p.2) := rfl
    rw [hstep, ih _ i (by rw [sliceAssignToLast_length]; omega),
      sliceAssignToLast_getElem? rho p.1 p.2 i]
    by_cases hp : p.1 ≤ i
    · simp only [List.filter_cons, decide_eq_true_eq, hp, if_true, if_pos (And.intro hp hi)]
      cases hrest : (rest.filter (fun q => q.1 ≤ i)).getLast? with
      | none =>
        have hfil : rest.filter (fun q => decide (q.1 ≤ i)) = [] :=
          List.getLast?_eq_none_iff.mp hrest
        cases hr : rho[i]? <;> simp [hfil, hrest, hi]
      | some q =>
        cases hq : rest.filter (fun q => decide (q.1 ≤ i)) with
        | nil => rw [hq] at hrest; simp at hrest
        | cons b t =>
          rw [hq] at hrest
          cases hr : rho[i]? <;>
            simp [List.getLast?_cons_cons, hq, hrest, hi]
    · simp only [List.filter_cons, decide_eq_true_eq, hp,
        if_neg (fun (hc : p.1 ≤ i ∧ i + 1 < rho.length) => hp hc.1)]
      cases rho[i]? <;> simp

/-- Painting never touches a row at or beyond `len - 1`. -/
theorem paintPure_getElem?_of_last (pairs : List (ℕ × ℚ)) :
    ∀ (rho : List (List ℚ)) (i : ℕ), rho.length ≤ i + 1 →
      (paintPure pairs rho)[i]? = rho[i]? := by
  induction pairs with
  | nil => intro rho i _; rfl
  | cons p rest ih =>
    intro rho i hi
    have hstep : (paintPure (p :: rest) rho) = paintPure rest (sliceAssignToLast rho p.1 p.2) := rfl
    rw [hstep, ih _ i (by rw [sliceAssignToLast_length]; omega),
      sliceAssignToLast_getElem? rho p.1 p.2 i]
    cases rho[i]? with
    | none => rfl
    | some row => simp [show ¬ (p.1 ≤ i ∧ i + 1 < rho.length) from fun hc => by omega]

/-- The last cell row is left exactly as initialized by the painting loop. -/
theorem paintPure_getLast? (pairs : List (ℕ × ℚ)) (rho : List (List ℚ)) :
    (paintPure pairs rho).getLast? = rho.getLast? := by
  rw [List.getLast?_eq_getElem?, List.getLast?_eq_getElem?, paintPure_length]
  exact paintPure_getElem?_of_last pairs rho (rho.length - 1) (by omega)

/-- When the loop is entered with `layer_idx = idx` and guard value `n` at
least `idx + len(ranges)` (as in the source: `idx = 0`,
`n = len(layer_cell_idx_ranges)`), the `layer_idx == n` guard is false at
every iteration and the loop is the guard-free painter. -/
theorem paintLoop_ok_eq (vals : List ℚ) :
    ∀ (rs : List (ℕ × ℕ)) (idx n : ℕ) (rho : List (List ℚ)),
      idx + rs.length ≤ n → idx + rs.length ≤ vals.length →
      paintLoop n vals idx rs rho =
        .ok (paintPure ((rs.map Prod.fst).zip (vals.drop idx)) rho) := by
  intro rs
  induction rs with
  | nil => intro idx n rho h1 h2; simp [paintLoop, paintPure]
  | cons se rest ih =>
    intro idx n rho h1 h2
    have hidx : idx < vals.length := by simp at h2; omega
    have hget : vals.get? idx = some (vals.get ⟨idx, hidx⟩) := List.get?_eq_get hidx
    have hdrop : vals.drop idx = vals.get ⟨idx, hidx⟩ :: vals.drop (idx + 1) :=
      List.drop_eq_getElem_cons hidx
    simp only [paintLoop, hget]
    rw [if_neg (show ¬ idx = n by simp at h1; omega)]
    rw [ih (idx + 1) n _ (by simp at h1 ⊢; omega) (by simp at h2 ⊢; omega), hdrop]
    rfl

/-- Element `i` of `l.enum.map f`. -/
theorem enumMapPr_getElem? (f : ℕ × List ℚ → List ℚ) (l : List (List ℚ)) (i : ℕ) :
    (l.enum.map f)[i]? = (l[i]?).map (fun row => f (i, row)) := by
  simp only [List.getElem?_map, List.getElem?_enum]
  cases l[i]? <;> simp

/-- The explicit boundary overwrite succeeds on a nonempty value list and
sets the last cell row to the last layer's value. -/
theorem ghostOverwrite_ok (vals : List ℚ) (rho : List (List ℚ)) (h : vals ≠ []) :
    ∃ r, ghostOverwrite vals rho = .ok r ∧
      r.getLast? = rho.getLast?.map
        (fun row => List.replicate row.length (vals.getLastD 0)) := by
  obtain ⟨v0, vt, rfl⟩ : ∃ v0 vt, vals = v0 :: vt := by
    cases vals with
    | nil => exact absurd rfl h
    | cons a t => exact ⟨a, t, rfl⟩
  refine ⟨_, rfl, ?_⟩
  by_cases hrho : rho = []
  · subst hrho; rfl
  · have hlen : 1 ≤ rho.length := by
      cases rho with
      | nil => exact absurd rfl hrho
      | cons _ _ => simp
    rw [List.getLast?_eq_getElem?, List.getLast?_eq_getElem?]
    simp only [List.length_map, List.enum_length]
    rw [enumMapPr_getElem?, enumMapPr_getElem?]
    cases hr : rho[rho.length - 1]? with
    | none => rfl
    | some row =>
      by_cases h0 : rho.length - 1 = 0
      · simp [h0, hr, show rho.length = 1 from by omega]
      · simp [h0, hr, show rho.length - 1 + 1 = rho.length from by omega]

/-- C9: in the field-painting loop the `layer_idx == len(ranges)` guard is
false at every iteration, so the loop equals the guard-free painter in
which every layer writes rows `[start_i, last_row)`; the last cell row is
never written by the loop (it keeps its initialization); for every other
row the LAST layer in order whose start index is ≤ the row wins (later
layers overwrite earlier ones); and the subsequent explicit boundary
overwrite is what assigns the last cell row, to the last layer's value. -/
theorem claim9_paint_guard_dead :
    (∀ (vals : List ℚ) (rs : List (ℕ × ℕ)) (rho : List (List ℚ)),
      rs.length ≤ vals.length →
      paintLoop rs.length vals 0 rs rho
        = .ok (paintPure ((rs.map Prod.fst).zip vals) rho)) ∧
    (∀ (pairs : List (ℕ × ℚ)) (rho : List (List ℚ)),
      (paintPure pairs rho).getLast? = rho.getLast?) ∧
    (∀ (pairs : List (ℕ × ℚ)) (rho : List (List ℚ)) (i : ℕ), i + 1 < rho.length →
      (paintPure pairs rho)[i]? = (rho[i]?).map (fun row =>
        (((pairs.filter (fun p => p.1 ≤ i)).getLast?).map Prod.snd).elim row
          (fun v => List.replicate row.length v))) ∧
    (∀ (vals : List ℚ) (rho : List (List ℚ)), vals ≠ [] →
      ∃ r, ghostOverwrite vals rho = .ok r ∧
        r.getLast? = rho.getLast?.map
          (fun row => List.replicate row.length (vals.getLastD 0))) := by
  refine ⟨fun vals rs rho hle => ?_, paintPure_getLast?, paintPure_getElem?, ghostOverwrite_ok⟩
  have := paintLoop_ok_eq vals rs 0 rs.length rho (by omega) (by omega)
  simpa using this

/-- Witness for C9 on a three-row grid with two layers. -/
theorem claim9_paint_guard_dead_witness :
    (paintLoop 2 [1, 2] 0 [(0, 1), (1, 4)] ([[0], [0], [0]] : List (List ℚ))
      = .ok (paintPure ([(0, 1), (1, 4)].map Prod.fst |>.zip [1, 2])
          ([[0], [0], [0]] : List (List ℚ)))) ∧
    ((paintPure [(0, 5), (1, 7)] ([[0], [0], [0]] : List (List ℚ))).getLast?
      = ([[0], [0], [0]] : List (List ℚ)).getLast?) ∧
    ((paintPure [(0, 5), (1, 7)] ([[0], [0], [0]] : List (List ℚ)))[1]?
      = (([[0], [0], [0]] : List (List ℚ))[1]?).map (fun row =>
        ((([(0, 5), (1, 7)].filter (fun p => p.1 ≤ 1)).getLast?).map Prod.snd).elim row
          (fun v => List.replicate row.length v))) ∧
    (∃ r, ghostOverwrite [3, 4] ([[0], [0], [0]] : List (List ℚ)) = .ok r ∧
        r.getLast? = ([[0], [0], [0]] : List (List ℚ)).getLast?.map
          (fun row => List.replicate row.length ([3, 4].getLastD 0))) :=
  ⟨claim9_paint_guard_dead.1 [1, 2] [(0, 1), (1, 4)] ([[0], [0], [0]] : List (List ℚ))
      (by decide),
    claim9_paint_guard_dead.2.1 [(0, 5), (1, 7)] ([[0], [0], [0]] : List (List ℚ)),
    claim9_paint_guard_dead.2.2.1 [(0, 5), (1, 7)] ([[0], [0], [0]] : List (List ℚ)) 1
      (by decide),
    claim9_paint_guard_dead.2.2.2 [3, 4] ([[0], [0], [0]] : List (List ℚ)) (by decide)⟩

/-- A rectangular array: `r` rows, each of length `c`. -/
def isRect (m : List (List ℚ)) (r c : ℕ) : Prop :=
  m.length = r ∧ ∀ row ∈ m, row.length = c

/-- The shape invariant of a returned grid dictionary: the node meshes have
some shape `(nx, ny)` and all six cell-centered arrays (fields and cell
centers) have shape `(nx - 1, ny - 1)`. -/
def gridShapesOk (G : Grid) (nx ny : ℕ) : Prop :=
  isRect G.x nx ny ∧ isRect G.y nx ny ∧
  isRect G.rho (nx - 1) (ny - 1) ∧ isRect G.u (nx - 1) (ny - 1) ∧
  isRect G.v (nx - 1) (ny - 1) ∧ isRect G.p (nx - 1) (ny - 1) ∧
  isRect G.xc (nx - 1) (ny - 1) ∧ isRect G.yc (nx - 1) (ny - 1)

/-- A mesh built as an outer product of two axes is rectangular. -/
theorem isRect_outer (xs ys : List ℚ) (f : ℚ → ℚ → ℚ) :
    isRect (xs.map (fun xi => ys.map (fun yj => f xi yj))) xs.length ys.length := by
  refine ⟨by simp, ?_⟩
  intro row hrow
  obtain ⟨xi, _, rfl⟩ := List.mem_map.mp hrow
  simp

/-- A mesh whose rows are all one fixed row is rectangular. -/
theorem isRect_const_rows (xs row0 : List ℚ) :
    isRect (xs.map (fun _ => row0)) xs.length row0.length := by
  refine ⟨by simp, ?_⟩
  intro row hrow
  obtain ⟨xi, _, rfl⟩ := List.mem_map.mp hrow
  rfl

/-- The cell-centered variant of `isRect_outer` (`[:-1, :-1]` slicing). -/
theorem isRect_outer_dropLast (xs ys : List ℚ) (f : ℚ → ℚ → ℚ) :
    isRect (xs.dropLast.map (fun xi => ys.dropLast.map (fun yj => f xi yj)))
      (xs.length - 1) (ys.length - 1) := by
  have h := isRect_outer xs.dropLast ys.dropLast f
  rwa [List.length_dropLast, List.length_dropLast] at h

/-- The cell-centered variant of `isRect_const_rows`. -/
theorem isRect_const_rows_dropLast (xs : List ℚ) (row0 : List ℚ) :
    isRect (xs.dropLast.map (fun _ => row0)) (xs.length - 1) row0.length := by
  have h := isRect_const_rows xs.dropLast row0
  rwa [List.length_dropLast] at h

/-- A rectangular array stays rectangular under any row-wise, row-length
preserving rewrite of `l.enum`. -/
theorem enumMap_isRect (f : ℕ × List ℚ → List ℚ) (l : List (List ℚ)) (a b : ℕ)
    (hf : ∀ pr, (f pr).length = pr.2.length) (h : isRect l a b) :
    isRect (l.enum.map f) a b := by
  refine ⟨by simp [h.1], ?_⟩
  intro row hrow
  obtain ⟨pr, hpr, rfl⟩ := List.mem_map.mp hrow
  rw [hf pr]
  exact h.2 pr.2 (List.snd_mem_of_mem_enum hpr)

/-- `rho[s:-1, :] = v` preserves rectangularity. -/
theorem sliceAssignToLast_isRect (rho : List (List ℚ)) (s : ℕ) (v : ℚ) (a b : ℕ)
    (h : isRect rho a b) : isRect (sliceAssignToLast rho s v) a b :=
  enumMap_isRect _ rho a b (fun pr => by split <;> simp) h

/-- `rho[s:e, :] = v` preserves rectangularity. -/
theorem sliceAssign_isRect (rho : List (List ℚ)) (s e : ℕ) (v : ℚ) (a b : ℕ)
    (h : isRect rho a b) : isRect (sliceAssign rho s e v) a b :=
  enumMap_isRect _ rho a b (fun pr => by split <;> simp) h

/-- A successful painting loop preserves rectangularity. -/
theorem paintLoop_isRect (vals : List ℚ) (a b : ℕ) :
    ∀ (rs : List (ℕ × ℕ)) (idx n : ℕ) (rho r : List (List ℚ)),
      paintLoop n vals idx rs rho = .ok r → isRect rho a b → isRect r a b := by
  intro rs
  induction rs with
  | nil =>
    intro idx n rho r h hrect
    obtain rfl : rho = r := (Except.ok.injEq _ _).mp h
    exact hrect
  | cons se rest ih =>
    intro idx n rho r h hrect
    simp only [paintLoop] at h
    split at h
    · simp at h
    · split at h
      · exact ih _ _ _ _ h (sliceAssign_isRect _ _ _ _ _ _ hrect)
      · exact ih _ _ _ _ h (sliceAssignToLast_isRect _ _ _ _ _ hrect)

/-- A successful boundary overwrite preserves rectangularity. -/
theorem ghostOverwrite_isRect (vals : List ℚ) (rho r : List (List ℚ)) (a b : ℕ)
    (h : ghostOverwrite vals rho = .ok r) (hrect : isRect rho a b) : isRect r a b := by
  simp only [ghostOverwrite] at h
  split at h
  · obtain rfl : _ = r := (Except.ok.injEq _ _).mp h
    exact enumMap_isRect _ _ a b (fun pr => by split <;> simp)
      (enumMap_isRect _ rho a b (fun pr => by split <;> simp) hrect)
  · simp at h

set_option maxHeartbeats 1000000 in
/-- C7: every grid any of the four constructors returns has node meshes of
some shape `(nx, ny)` and cell-centered arrays — the four fields and the
cell-center meshes — of shape `(nx - 1, ny - 1)`. -/
theorem claim7_cell_shapes :
    (∀ (lim : String) (nc : ℕ × ℕ) (xr yr : ℚ × ℚ) (G : Grid),
      make_uniform_grid lim nc xr yr = .ok G → ∃ nx ny, gridShapesOk G nx ny) ∧
    (∀ (lim : String) (n : ℕ) (lims : ℚ × ℚ) (G : Grid),
      make_1d_in_x_uniform_grid lim n lims = .ok G → ∃ nx ny, gridShapesOk G nx ny) ∧
    (∀ (fuel : ℕ) (ts : List ℚ) (ncs : List ℕ) (d u v p : List ℚ) (yt : ℚ)
      (dy : Option ℚ) (sp : List String) (scf : ℚ) (lim : String) (G : Grid),
      make_2d_layered_grid fuel ts ncs d u v p yt dy sp scf lim = .ok (some G) →
      ∃ nx ny, gridShapesOk G nx ny) ∧
    (∀ (fuel : ℕ) (ts : List ℚ) (ncs : List ℕ) (d u v p : List ℚ)
      (sp : List String) (scf : ℚ) (lim : String) (G : Grid),
      make_1d_layered_grid fuel ts ncs d u v p sp scf lim = .ok (some G) →
      ∃ nx ny, gridShapesOk G nx ny) := by
  refine ⟨fun lim nc xr yr G h => ?_, fun lim n lims G h => ?_,
    fun fuel ts ncs d u v p yt dy sp scf lim G h => ?_,
    fun fuel ts ncs d u v p sp scf lim G h => ?_⟩
  · simp only [make_uniform_grid] at h
    split at h
    · simp at h
    · rename_i g hg
      obtain rfl : _ = G := (Except.ok.injEq _ _).mp h
      exact ⟨_, _, isRect_outer _ _ (fun xi _ => xi), isRect_const_rows _ _,
        isRect_outer_dropLast _ _ (fun _ _ => 1), isRect_outer_dropLast _ _ (fun _ _ => 1),
        isRect_outer_dropLast _ _ (fun _ _ => 1), isRect_outer_dropLast _ _ (fun _ _ => 1),
        isRect_outer_dropLast _ _ (fun xi _ => xi + (xr.2 - xr.1) / (nc.1 : ℚ) / 2),
        isRect_outer_dropLast _ _ (fun _ yj => yj + (yr.2 - yr.1) / (nc.2 : ℚ) / 2)⟩
  · simp only [make_1d_in_x_uniform_grid] at h
    split at h
    · simp at h
    · rename_i g hg
      obtain rfl : _ = G := (Except.ok.injEq _ _).mp h
      exact ⟨_, _, isRect_outer _ _ (fun xi _ => xi), isRect_const_rows _ _,
        isRect_outer_dropLast _ _ (fun _ _ => 1), isRect_outer_dropLast _ _ (fun _ _ => 1),
        isRect_outer_dropLast _ _ (fun _ _ => 1), isRect_outer_dropLast _ _ (fun _ _ => 1),
        isRect_outer_dropLast _ _ (fun xi _ => xi + (lims.2 - lims.1) / (n : ℚ) / 2),
        isRect_outer_dropLast _ _ (fun _ yj => yj + (lims.2 - lims.1) / (n : ℚ) / 2)⟩
  · simp only [make_2d_layered_grid] at h
    split at h
    · simp at h
    split at h
    · simp at h
    · simp at h
    split at h
    · simp at h
    split at h
    · simp at h
    split at h
    · simp at h
    split at h
    · simp at h
    split at h
    case _ rho0 u0 v0 p0 hrho0 hu0 hv0 hp0 =>
      split at h
      · simp at h
      split at h
      case _ rho1 u1 v1 p1 hrho1 hu1 hv1 hp1 =>
        obtain rfl : _ = G := (Option.some.injEq _ _).mp ((Except.ok.injEq _ _).mp h)
        refine ⟨_, _, isRect_outer _ _ (fun xi _ => xi), isRect_const_rows _ _, ?_, ?_, ?_, ?_,
          isRect_outer_dropLast _ _ (fun xi _ => xi + _),
          isRect_outer_dropLast _ _ (fun _ yj => yj + _)⟩
        · exact ghostOverwrite_isRect _ _ _ _ _ hrho1
            (paintLoop_isRect _ _ _ _ _ _ _ _ hrho0 (isRect_outer_dropLast _ _ (fun _ _ => 0)))
        · exact ghostOverwrite_isRect _ _ _ _ _ hu1
            (paintLoop_isRect _ _ _ _ _ _ _ _ hu0 (isRect_outer_dropLast _ _ (fun _ _ => 0)))
        · exact ghostOverwrite_isRect _ _ _ _ _ hv1
            (paintLoop_isRect _ _ _ _ _ _ _ _ hv0 (isRect_outer_dropLast _ _ (fun _ _ => 0)))
        · exact ghostOverwrite_isRect _ _ _ _ _ hp1
            (paintLoop_isRect _ _ _ _ _ _ _ _ hp0 (isRect_outer_dropLast _ _ (fun _ _ => 0)))
      all_goals simp at h
    all_goals simp at h
  · simp only [make_1d_layered_grid] at h
    split at h
    · simp at h
    split at h
    · simp at h
    · simp at h
    split at h
    · simp at h
    split at h
    · simp at h
    split at h
    · simp at h
    split at h
    case _ rho0 u0 v0 p0 hrho0 hu0 hv0 hp0 =>
      split at h
      case _ rho1 u1 v1 p1 hrho1 hu1 hv1 hp1 =>
        obtain rfl : _ = G := (Option.some.injEq _ _).mp ((Except.ok.injEq _ _).mp h)
        refine ⟨_, _, isRect_outer _ _ (fun xi _ => xi), isRect_const_rows _ _, ?_, ?_, ?_, ?_,
          isRect_outer_dropLast _ _ (fun xi _ => xi + _),
          isRect_outer_dropLast _ _ (fun _ yj => yj + _)⟩
        · exact ghostOverwrite_isRect _ _ _ _ _ hrho1
            (paintLoop_isRect _ _ _ _ _ _ _ _ hrho0 (isRect_const_rows_dropLast _ _))
        · exact ghostOverwrite_isRect _ _ _ _ _ hu1
            (paintLoop_isRect _ _ _ _ _ _ _ _ hu0 (isRect_const_rows_dropLast _ _))
        · exact ghostOverwrite_isRect _ _ _ _ _ hv1
            (paintLoop_isRect _ _ _ _ _ _ _ _ hv0 (isRect_const_rows_dropLast _ _))
        · exact ghostOverwrite_isRect _ _ _ _ _ hp1
            (paintLoop_isRect _ _ _ _ _ _ _ _ hp0 (isRect_const_rows_dropLast _ _))
      all_goals simp at h
    all_goals simp at h

/-- Witness for C7: the uniform constructors evaluated at concrete inputs
under the `minmod` limiter. -/
theorem claim7_cell_shapes_witness :
    (∃ G, make_uniform_grid "minmod" (1, 1) (0, 1) (0, 1) = .ok G ∧
      ∃ nx ny, gridShapesOk G nx ny) ∧
    (∃ G, make_1d_in_x_uniform_grid "minmod" 1 (0, 1) = .ok G ∧
      ∃ nx ny, gridShapesOk G nx ny) :=
  ⟨⟨_, rfl, claim7_cell_shapes.1 "minmod" (1, 1) (0, 1) (0, 1) _ rfl⟩,
    ⟨_, rfl, claim7_cell_shapes.2.1 "minmod" 1 (0, 1) _ rfl⟩⟩

end Pycato
